import Mathlib

/-!
# Verification of the RRG metrics engine and frame builder

This development gives a shallow embedding of the two core functions of
`src/rrg.py` and proves the specification claims about them.

* `calculate` (the Metrics Engine): pandas column-wise operations are embedded
  as functions `ℕ → Option ℝ` where `none` models a not-a-number entry.
  Division by zero and every operation with a `none` operand yield `none`
  (the idealization of IEEE NaN propagation; infinities are not distinguished
  from NaN since no claim exercises them).  `rolling(window).mean()` and
  `rolling(window).std(ddof=0)` are embedded with pandas' default
  `min_periods = window` rule: the statistic is defined exactly when the
  window is full and every entry in it is defined.  `pct_change(periods=5)`
  is embedded as the plain formula `x[t]/x[t-5] - 1` (no forward filling).
* `calculateAligned` additionally models the index alignment that
  `DataFrame.div(series, axis=0)` performs when the two time indices differ:
  both operands are reindexed over the sorted union of the indices and rows
  missing on either side become not-a-number.
* `build_frames` (the Frame Builder): tables are `FTable` values (an index of
  formatted date strings plus named columns of `Option ℚ` entries); the
  produced plotly frames and slider steps are embedded as explicit
  structures.  Comparisons `a > b` on floats are `false` whenever an operand
  is NaN, which `qgt` reproduces on `Option ℚ`.
-/

/-! ## Option-valued arithmetic (NaN propagation) over ℝ -/

def oadd (a b : Option ℝ) : Option ℝ :=
  match a, b with
  | some x, some y => some (x + y)
  | _, _ => none

def osub (a b : Option ℝ) : Option ℝ :=
  match a, b with
  | some x, some y => some (x - y)
  | _, _ => none

def omul (a b : Option ℝ) : Option ℝ :=
  match a, b with
  | some x, some y => some (x * y)
  | _, _ => none

open Classical in
noncomputable def odiv (a b : Option ℝ) : Option ℝ :=
  match a, b with
  | some x, some y => if y = 0 then none else some (x / y)
  | _, _ => none

/-! ## Rolling statistics (pandas `rolling(window)` with default min_periods) -/

def rollingWindow (w : ℕ) (f : ℕ → Option ℝ) (t : ℕ) : List (Option ℝ) :=
  (List.range w).map (fun j => f (t + 1 - w + j))

noncomputable def rollingMean (w : ℕ) (f : ℕ → Option ℝ) (t : ℕ) : Option ℝ :=
  if 0 < w ∧ w ≤ t + 1 ∧ (rollingWindow w f t).all (fun o => o.isSome) then
    some ((((rollingWindow w f t).map (fun o => o.getD 0)).sum) / w)
  else none

noncomputable def rollingVar (w : ℕ) (f : ℕ → Option ℝ) (t : ℕ) : Option ℝ :=
  if 0 < w ∧ w ≤ t + 1 ∧ (rollingWindow w f t).all (fun o => o.isSome) then
    some ((((rollingWindow w f t).map (fun o =>
      (o.getD 0 - (((rollingWindow w f t).map (fun u => u.getD 0)).sum) / w) ^ 2)).sum) / w)
  else none

noncomputable def rollingStd (w : ℕ) (f : ℕ → Option ℝ) (t : ℕ) : Option ℝ :=
  (rollingVar w f t).map Real.sqrt

/-! ## The Metrics Engine: `calculate(benchmark_series, tickers_df, window)`

Embedding of lines 12-19 of `src/rrg.py`.  All the pandas table operations
used there act column by column, so the engine is embedded per column and the
table-level function maps it over the column list.  -/

noncomputable def rawCol (bench col : ℕ → Option ℝ) : ℕ → Option ℝ :=
  fun t => odiv (col t) (bench t)

noncomputable def ratioFromRaw (w : ℕ) (raw : ℕ → Option ℝ) : ℕ → Option ℝ :=
  fun t => oadd (some 100) (odiv (osub (raw t) (rollingMean w raw t)) (rollingStd w raw t))

noncomputable def rocFromRatio (ratio : ℕ → Option ℝ) : ℕ → Option ℝ :=
  fun t => if t < 5 then none
    else omul (osub (odiv (ratio t) (ratio (t - 5))) (some 1)) (some 100)

noncomputable def momFromRatio (w : ℕ) (ratio : ℕ → Option ℝ) : ℕ → Option ℝ :=
  fun t => oadd (some 101)
    (odiv (osub (rocFromRatio ratio t) (rollingMean w (rocFromRatio ratio) t))
      (rollingStd w (rocFromRatio ratio) t))

noncomputable def ratioCol (bench col : ℕ → Option ℝ) (w : ℕ) : ℕ → Option ℝ :=
  ratioFromRaw w (rawCol bench col)

noncomputable def momCol (bench col : ℕ → Option ℝ) (w : ℕ) : ℕ → Option ℝ :=
  momFromRatio w (ratioCol bench col w)

noncomputable def calculate (bench : ℕ → Option ℝ)
    (cols : List (String × (ℕ → Option ℝ))) (w : ℕ) :
    List (String × (ℕ → Option ℝ)) × List (String × (ℕ → Option ℝ)) :=
  (cols.map (fun p => (p.1, ratioCol bench p.2 w)),
   cols.map (fun p => (p.1, momCol bench p.2 w)))

/-! ## Index alignment performed by `tickers_df.div(benchmark_series, axis=0)`

When the two time indices are not identical, pandas does not raise: it joins
the indices with an outer join (the sorted union for monotonic indices) and
fills rows missing on either side with NaN.  `calculateAligned` models the
engine called on a benchmark indexed by `bIdx` and a ticker table indexed by
`tIdx`; timestamps are natural numbers and both indices are assumed sorted. -/

def mergeUnionAux : ℕ → List ℕ → List ℕ → List ℕ
  | 0, xs, ys => xs ++ ys
  | _ + 1, [], ys => ys
  | _ + 1, x :: xs, [] => x :: xs
  | fuel + 1, x :: xs, y :: ys =>
    if x < y then x :: mergeUnionAux fuel xs (y :: ys)
    else if y < x then y :: mergeUnionAux fuel (x :: xs) ys
    else x :: mergeUnionAux fuel xs ys

def mergeUnion (xs ys : List ℕ) : List ℕ := mergeUnionAux (xs.length + ys.length) xs ys

def posLookup (idx : List ℕ) (vals : List (Option ℝ)) (d : ℕ) : Option ℝ :=
  match idx.findIdx? (fun e => e == d) with
  | some i => vals.getD i none
  | none => none

noncomputable def rawAligned (bIdx : List ℕ) (bvals : List (Option ℝ))
    (tIdx : List ℕ) (cvals : List (Option ℝ)) : ℕ → Option ℝ :=
  fun k =>
    if k < (mergeUnion tIdx bIdx).length then
      odiv (posLookup tIdx cvals ((mergeUnion tIdx bIdx).getD k 0))
        (posLookup bIdx bvals ((mergeUnion tIdx bIdx).getD k 0))
    else none

noncomputable def calculateAligned (bIdx : List ℕ) (bvals : List (Option ℝ))
    (tIdx : List ℕ) (cols : List (String × List (Option ℝ))) (w : ℕ) :
    List ℕ × List (String × (ℕ → Option ℝ)) × List (String × (ℕ → Option ℝ)) :=
  (mergeUnion tIdx bIdx,
   cols.map (fun p => (p.1, ratioFromRaw w (rawAligned bIdx bvals tIdx p.2))),
   cols.map (fun p => (p.1, momFromRatio w (ratioFromRaw w (rawAligned bIdx bvals tIdx p.2)))))

/-! ## Option-valued arithmetic over ℚ for the Frame Builder -/

def qsub (a b : Option ℚ) : Option ℚ :=
  match a, b with
  | some x, some y => some (x - y)
  | _, _ => none

def qabs (a : Option ℚ) : Option ℚ := a.map (fun x => |x|)

def qgt (a b : Option ℚ) : Bool :=
  match a, b with
  | some x, some y => decide (y < x)
  | _, _ => false

/-! ## The Frame Builder: `build_frames(rs_data, rsm_data, tail_points, total_frames)`

Embedding of lines 21-110 of `src/rrg.py`.  An `FTable` carries the table's
time index (already formatted as date strings, as `strftime` produces them)
and the named columns.  `Scatter`, `FrameD` and `SliderStep` record exactly
the fields the source writes into the plotly dictionaries. -/

structure FTable where
  index : List String
  cols : List (String × List (Option ℚ))
deriving DecidableEq

def colOf (tbl : FTable) (name : String) : List (Option ℚ) :=
  match tbl.cols.find? (fun p => p.1 == name) with
  | some p => p.2
  | none => []

structure TransParams where
  frameDuration : ℕ
  redraw : Bool
  mode : String
  transitionDuration : ℕ
deriving DecidableEq

def instantTrans : TransParams := ⟨0, true, "immediate", 0⟩

structure Scatter where
  x : List (Option ℚ)
  y : List (Option ℚ)
  mode : String
  name : String
  text : List (Option String)
  textposition : String
  cliponaxis : Bool
  markerSymbol : List String
  markerSize : List ℕ
  markerOpacity : ℕ
deriving DecidableEq

structure FrameD where
  name : String
  data : List Scatter
deriving DecidableEq

structure SliderStep where
  argKeys : List String
  transition : Option TransParams
  label : String
  method : String
deriving DecidableEq

def degenScatter (name : String) (x y : List (Option ℚ)) : Scatter :=
  ⟨x, y, "lines+markers+text", name,
    List.replicate (x.length - 1) none ++ [some name], "middle right", false,
    ["triangle-up"], [14], 1⟩

def arrowSymbol (x y : List (Option ℚ)) : String :=
  if 1 < x.length then
    let dx := qsub (x.getD (x.length - 1) none) (x.getD (x.length - 2) none)
    let dy := qsub (y.getD (y.length - 1) none) (y.getD (y.length - 2) none)
    if qgt (qabs dx) (qabs dy) then
      if qgt dx (some 0) then "triangle-right" else "triangle-left"
    else
      if qgt dy (some 0) then "triangle-up" else "triangle-down"
  else "triangle-up"

def generalScatter (name : String) (x y : List (Option ℚ)) : Scatter :=
  ⟨x, y, "lines+markers+text", name,
    List.replicate (x.length - 1) none ++ [some name], "middle right", false,
    List.replicate (x.length - 1) "circle" ++ [arrowSymbol x y],
    List.replicate (x.length - 1) 8 ++ [14], 1⟩

def frameBounds (len n i : ℕ) : Option (ℕ × ℕ) :=
  let s0 : ℤ := (len : ℤ) - (n : ℤ) - (i : ℤ)
  let e0 : ℤ := s0 + (n : ℤ)
  let s : ℤ := if s0 < 0 then 0 else s0
  let e : ℤ := if e0 > (len : ℤ) then (len : ℤ) else e0
  if e - s < 1 then none else some (s.toNat, e.toNat)

def sliceCol (l : List (Option ℚ)) (s e : ℕ) : List (Option ℚ) :=
  (l.drop s).take (e - s)

def frameKey (idx : List String) (s e : ℕ) : String :=
  idx.getD s "" ++ " - " ++ idx.getD (e - 1) ""

def mkFrame (rs rsm : FTable) (s e : ℕ) : FrameD :=
  ⟨frameKey rs.index s e,
   rs.cols.map (fun p => generalScatter p.1 (sliceCol p.2 s e) (sliceCol (colOf rsm p.1) s e))⟩

def mkStep (key : String) : SliderStep := ⟨[key], some instantTrans, key, "animate"⟩

def build_frames (rs rsm : FTable) (tail_points total_frames : ℕ) :
    List FrameD × List SliderStep :=
  if rs.index.length < 2 then
    ([⟨"SingleFrame", rs.cols.map (fun p => degenScatter p.1 p.2 (colOf rsm p.1))⟩],
     [⟨["SingleFrame"], none, "SingleFrame", "animate"⟩])
  else
    let items := (List.range (total_frames + 1)).reverse.filterMap (fun i =>
      (frameBounds rs.index.length tail_points i).map (fun se =>
        (mkFrame rs rsm se.1 se.2, mkStep (frameKey rs.index se.1 se.2))))
    (items.map Prod.fst, items.map Prod.snd)

/-! ## Spec-side definitions

These follow the wording of the specification claims (not the source) and are
used only to compare the two.  `claimBounds` is the window-bound formula of
claim C1 (`end` computed from the *clamped* start); `amendedBounds` is the
closed form the code actually implements (`end` computed from the unclamped
start, i.e. `end = min(len, len - i)`).  `claimDir` is the direction
classifier exactly as the spec words it. -/

def claimBounds (len n i : ℕ) : Option (ℕ × ℕ) :=
  let s : ℤ := max 0 ((len : ℤ) - (n : ℤ) - (i : ℤ))
  let e : ℤ := min (len : ℤ) (s + (n : ℤ))
  if e - s < 1 then none else some (s.toNat, e.toNat)

def amendedBounds (len n i : ℕ) : Option (ℕ × ℕ) :=
  if len - n - i < len - i then some (len - n - i, len - i) else none

def claimDir (dx dy : ℚ) : String :=
  if |dy| < |dx| then
    if 0 < dx then "triangle-right" else "triangle-left"
  else
    if 0 < dy then "triangle-up" else "triangle-down"

/-! ## Concrete example tables used by counterexamples and witnesses -/

def c1Rs : FTable := ⟨["2024-01-01", "2024-01-02"], [("A", [some 0, some 1])]⟩

def c1Rsm : FTable := ⟨["2024-01-01", "2024-01-02"], [("A", [some 0, some 1])]⟩

def c6Rs : FTable :=
  ⟨["2024-01-01", "2024-01-02", "2024-01-03"], [("A", [some 0, some 1, some 2])]⟩

def c6Rsm : FTable :=
  ⟨["2024-01-01", "2024-01-02", "2024-01-03"], [("A", [some 3, some 4, some 5])]⟩

def c9D : FTable := ⟨["2024-01-01"], [("A", [some 1])]⟩

def c9W : FTable := ⟨["2024-01-01", "2024-01-02"], [("A", [some 0, some 1])]⟩

def c5Rs : FTable := ⟨["2024-01-01"], [("A", [some 3]), ("B", [some 4])]⟩

def c5Rsm : FTable := ⟨["2024-01-01"], [("A", [some 5]), ("B", [some 6])]⟩

def c7Empty : FTable := ⟨[], [("A", [])]⟩

def c7Rs : FTable := ⟨["2024-01-01", "2024-01-02"], [("A", [some 0, some 1])]⟩

def c7Rsm : FTable := ⟨["2024-01-01", "2024-01-02"], [("A", [some 2, some 3])]⟩

def c7Sc : Scatter := generalScatter "A" [some 0, some 1] [some 2, some 3]

def c4Rs : FTable := ⟨["2024-01-01", "2024-01-02"], [("A", [some 0, some 2])]⟩

def c4Rsm : FTable := ⟨["2024-01-01", "2024-01-02"], [("A", [some 0, some 1])]⟩

def c4Sc : Scatter := generalScatter "A" [some 0, some 2] [some 0, some 1]

def c8BIdx : List ℕ := [0, 1, 2]

def c8TIdx : List ℕ := [1, 2, 3]

def c8BVals : List (Option ℝ) := [some 1, some 1, some 1]

def c8CVals : List (Option ℝ) := [some 2, some 4, some 8]


/-! ## Helper lemmas: Option arithmetic -/

theorem oadd_none_right (a : Option ℝ) : oadd a none = none := by cases a <;> rfl

theorem osub_none_right (a : Option ℝ) : osub a none = none := by cases a <;> rfl

theorem osub_none_left (b : Option ℝ) : osub none b = none := by cases b <;> rfl

theorem odiv_none_left (b : Option ℝ) : odiv none b = none := by cases b <;> rfl

theorem odiv_none_right (a : Option ℝ) : odiv a none = none := by cases a <;> rfl

theorem odiv_zero_right (a : Option ℝ) : odiv a (some 0) = none := by
  cases a <;> simp [odiv]

theorem omul_none_left (b : Option ℝ) : omul none b = none := by cases b <;> rfl

/-! ## Helper lemmas: window bounds -/

theorem frameBounds_eq_amended (len n i : ℕ) :
    frameBounds len n i = amendedBounds len n i := by
  unfold frameBounds amendedBounds
  dsimp only
  split_ifs <;>
    first
      | rfl
      | omega
      | (simp only [Option.some.injEq, Prod.mk.injEq]; constructor <;> omega)

theorem frameBounds_some (len n i s e : ℕ) (h : frameBounds len n i = some (s, e)) :
    s = len - n - i ∧ e = len - i ∧ s < e := by
  rw [frameBounds_eq_amended] at h
  unfold amendedBounds at h
  split_ifs at h with hc
  · simp only [Option.some.injEq, Prod.mk.injEq] at h
    exact ⟨h.1.symm, h.2.symm, by omega⟩

theorem filterMap_length_add {α β : Type} (l : List α) (f : α → Option β) :
    (l.filterMap f).length + (l.filter (fun a => (f a).isNone)).length = l.length := by
  induction l with
  | nil => simp
  | cons a l ih =>
    cases h : f a <;>
      simp [List.filterMap_cons, h, List.filter_cons] <;> omega

/-! ## Helper lemmas: the general branch of `build_frames` -/

theorem build_frames_general (rs rsm : FTable) (n tf : ℕ) (h2 : 2 ≤ rs.index.length) :
    build_frames rs rsm n tf =
      (((List.range (tf + 1)).reverse.filterMap (fun i =>
          (frameBounds rs.index.length n i).map (fun se =>
            (mkFrame rs rsm se.1 se.2, mkStep (frameKey rs.index se.1 se.2))))).map Prod.fst,
       ((List.range (tf + 1)).reverse.filterMap (fun i =>
          (frameBounds rs.index.length n i).map (fun se =>
            (mkFrame rs rsm se.1 se.2, mkStep (frameKey rs.index se.1 se.2))))).map Prod.snd) := by
  unfold build_frames
  rw [if_neg (by omega)]

theorem frames_eq (rs rsm : FTable) (n tf : ℕ) (h2 : 2 ≤ rs.index.length) :
    (build_frames rs rsm n tf).1 = (List.range (tf + 1)).reverse.filterMap (fun i =>
      (frameBounds rs.index.length n i).map (fun se => mkFrame rs rsm se.1 se.2)) := by
  rw [build_frames_general rs rsm n tf h2]
  dsimp only
  rw [List.map_filterMap]
  congr 1
  funext i
  cases frameBounds rs.index.length n i <;> rfl

theorem steps_eq (rs rsm : FTable) (n tf : ℕ) (h2 : 2 ≤ rs.index.length) :
    (build_frames rs rsm n tf).2 = (List.range (tf + 1)).reverse.filterMap (fun i =>
      (frameBounds rs.index.length n i).map (fun se => mkStep (frameKey rs.index se.1 se.2))) := by
  rw [build_frames_general rs rsm n tf h2]
  dsimp only
  rw [List.map_filterMap]
  congr 1
  funext i
  cases frameBounds rs.index.length n i <;> rfl

/-! ## Helper lemmas: frame keys -/

theorem string_append_inj_right (a1 a2 m b1 b2 : String) (hlen : a1.length = a2.length)
    (h : a1 ++ m ++ b1 = a2 ++ m ++ b2) : b1 = b2 := by
  have hd : ((a1 ++ m) ++ b1).data = ((a2 ++ m) ++ b2).data := congrArg String.data h
  simp only [String.data_append] at hd
  have hpl : (a1.data ++ m.data).length = (a2.data ++ m.data).length := by
    have : a1.data.length = a2.data.length := hlen
    simp [this]
  obtain ⟨-, h2⟩ := List.append_inj hd hpl
  exact String.ext h2

theorem frameKey_inj (idx : List String) (hnd : idx.Nodup)
    (hlen : ∀ a ∈ idx, ∀ b ∈ idx, a.length = b.length)
    (n i1 i2 s1 e1 s2 e2 : ℕ)
    (h1 : frameBounds idx.length n i1 = some (s1, e1))
    (h2 : frameBounds idx.length n i2 = some (s2, e2))
    (hk : frameKey idx s1 e1 = frameKey idx s2 e2) : i1 = i2 := by
  obtain ⟨hs1, he1, hlt1⟩ := frameBounds_some _ _ _ _ _ h1
  obtain ⟨hs2, he2, hlt2⟩ := frameBounds_some _ _ _ _ _ h2
  have hslt1 : s1 < idx.length := by omega
  have hslt2 : s2 < idx.length := by omega
  have helt1 : e1 - 1 < idx.length := by omega
  have helt2 : e2 - 1 < idx.length := by omega
  unfold frameKey at hk
  rw [List.getD_eq_getElem idx "" hslt1, List.getD_eq_getElem idx "" helt1,
      List.getD_eq_getElem idx "" hslt2, List.getD_eq_getElem idx "" helt2] at hk
  have hll : (idx[s1]).length = (idx[s2]).length := by
    apply hlen
    · exact List.getElem_mem hslt1
    · exact List.getElem_mem hslt2
  have hb := string_append_inj_right _ _ " - " _ _ hll hk
  have : e1 - 1 = e2 - 1 := (List.Nodup.getElem_inj_iff hnd).mp hb
  omega

theorem frames_names_nodup (rs rsm : FTable) (n tf : ℕ) (h2 : 2 ≤ rs.index.length)
    (hnd : rs.index.Nodup)
    (hlen : ∀ a ∈ rs.index, ∀ b ∈ rs.index, a.length = b.length) :
    ((build_frames rs rsm n tf).1.map FrameD.name).Nodup := by
  rw [frames_eq rs rsm n tf h2, List.map_filterMap]
  have hfun : (fun i => ((frameBounds rs.index.length n i).map
        (fun se => mkFrame rs rsm se.1 se.2)).map FrameD.name)
      = (fun i => (frameBounds rs.index.length n i).map
        (fun se => frameKey rs.index se.1 se.2)) := by
    funext i
    cases frameBounds rs.index.length n i <;> rfl
  rw [hfun]
  refine List.Nodup.filterMap ?_ (List.nodup_reverse.mpr (List.nodup_range _))
  intro a a' b hb hb'
  rw [Option.mem_map] at hb hb'
  obtain ⟨se, hse, hkb⟩ := hb
  obtain ⟨se', hse', hkb'⟩ := hb'
  rw [Option.mem_def] at hse hse'
  exact frameKey_inj rs.index hnd hlen n a a' se.1 se.2 se'.1 se'.2 hse hse'
    (by rw [hkb, hkb'])

theorem mem_frames (rs rsm : FTable) (n tf : ℕ) (h2 : 2 ≤ rs.index.length)
    (f : FrameD) (hf : f ∈ (build_frames rs rsm n tf).1) :
    ∃ i s e, frameBounds rs.index.length n i = some (s, e) ∧ f = mkFrame rs rsm s e := by
  rw [frames_eq rs rsm n tf h2] at hf
  rw [List.mem_filterMap] at hf
  obtain ⟨i, -, hi⟩ := hf
  rw [Option.map_eq_some'] at hi
  obtain ⟨se, hse, hfe⟩ := hi
  exact ⟨i, se.1, se.2, hse, hfe.symm⟩

theorem sliceCol_length (l : List (Option ℚ)) (s e : ℕ) (h : e ≤ l.length) :
    (sliceCol l s e).length = e - s := by
  simp only [sliceCol, List.length_take, List.length_drop]
  omega

theorem arrowSymbol_short (x y : List (Option ℚ)) (h : x.length < 2) :
    arrowSymbol x y = "triangle-up" := by
  unfold arrowSymbol
  rw [if_neg (by omega)]

theorem qsub_some (a b : ℚ) : qsub (some a) (some b) = some (a - b) := rfl

theorem qabs_some (a : ℚ) : qabs (some a) = some |a| := rfl

theorem qgt_some (a b : ℚ) : qgt (some a) (some b) = decide (b < a) := rfl

theorem arrowSymbol_eq_claimDir (x y : List (Option ℚ)) (a b c d : ℚ)
    (h2 : 2 ≤ x.length)
    (hx1 : x.getD (x.length - 1) none = some a)
    (hx2 : x.getD (x.length - 2) none = some b)
    (hy1 : y.getD (y.length - 1) none = some c)
    (hy2 : y.getD (y.length - 2) none = some d) :
    arrowSymbol x y = claimDir (a - b) (c - d) := by
  unfold arrowSymbol claimDir
  rw [if_pos (by omega)]
  simp only [hx1, hx2, hy1, hy2, qsub_some, qabs_some, qgt_some, decide_eq_true_eq]

/-! ## Helper lemmas: slider steps pair with frames -/

theorem filterMap_map_length {α β γ δ : Type} (l : List α) (g : α → Option β)
    (F : β → γ) (G : β → δ) :
    (l.filterMap (fun a => (g a).map F)).length
      = (l.filterMap (fun a => (g a).map G)).length := by
  induction l with
  | nil => rfl
  | cons a l ih => cases h : g a <;> simp [List.filterMap_cons, h, ih]

theorem steps_length_eq (rs rsm : FTable) (n tf : ℕ) (h2 : 2 ≤ rs.index.length) :
    (build_frames rs rsm n tf).2.length = (build_frames rs rsm n tf).1.length := by
  rw [frames_eq rs rsm n tf h2, steps_eq rs rsm n tf h2]
  exact filterMap_map_length _ _ _ _

theorem mem_items (rs rsm : FTable) (n tf : ℕ) (it : FrameD × SliderStep)
    (hit : it ∈ (List.range (tf + 1)).reverse.filterMap (fun i =>
      (frameBounds rs.index.length n i).map (fun se =>
        (mkFrame rs rsm se.1 se.2, mkStep (frameKey rs.index se.1 se.2))))) :
    it.2.label = it.1.name ∧ it.2.argKeys = [it.1.name] ∧
    it.2.transition = some instantTrans ∧ it.2.method = "animate" := by
  rw [List.mem_filterMap] at hit
  obtain ⟨i, -, hi⟩ := hit
  rw [Option.map_eq_some'] at hi
  obtain ⟨se, -, hfe⟩ := hi
  rw [← hfe]
  exact ⟨rfl, rfl, rfl, rfl⟩

theorem step_label_pairing (rs rsm : FTable) (n tf : ℕ) (h2 : 2 ≤ rs.index.length) :
    ∀ j : ℕ, ((build_frames rs rsm n tf).2[j]?).map SliderStep.label
      = ((build_frames rs rsm n tf).1[j]?).map FrameD.name := by
  intro j
  rw [build_frames_general rs rsm n tf h2]
  dsimp only
  rw [List.getElem?_map, List.getElem?_map, Option.map_map, Option.map_map]
  cases hj : ((List.range (tf + 1)).reverse.filterMap (fun i =>
      (frameBounds rs.index.length n i).map (fun se =>
        (mkFrame rs rsm se.1 se.2, mkStep (frameKey rs.index se.1 se.2)))))[j]? with
  | none => rfl
  | some it =>
    have hmem := List.getElem?_mem hj
    have hlab := (mem_items rs rsm n tf it hmem).1
    simp [Function.comp, hlab]

theorem step_argKeys_pairing (rs rsm : FTable) (n tf : ℕ) (h2 : 2 ≤ rs.index.length) :
    ∀ j : ℕ, ((build_frames rs rsm n tf).2[j]?).map SliderStep.argKeys
      = ((build_frames rs rsm n tf).1[j]?).map (fun f => [f.name]) := by
  intro j
  rw [build_frames_general rs rsm n tf h2]
  dsimp only
  rw [List.getElem?_map, List.getElem?_map, Option.map_map, Option.map_map]
  cases hj : ((List.range (tf + 1)).reverse.filterMap (fun i =>
      (frameBounds rs.index.length n i).map (fun se =>
        (mkFrame rs rsm se.1 se.2, mkStep (frameKey rs.index se.1 se.2)))))[j]? with
  | none => rfl
  | some it =>
    have hmem := List.getElem?_mem hj
    have hkeys := (mem_items rs rsm n tf it hmem).2.1
    simp [Function.comp, hkeys]

theorem steps_transition_general (rs rsm : FTable) (n tf : ℕ) (h2 : 2 ≤ rs.index.length) :
    ∀ st ∈ (build_frames rs rsm n tf).2,
      st.transition = some instantTrans ∧ st.method = "animate" := by
  intro st hst
  rw [steps_eq rs rsm n tf h2] at hst
  rw [List.mem_filterMap] at hst
  obtain ⟨i, -, hi⟩ := hst
  rw [Option.map_eq_some'] at hi
  obtain ⟨se, -, hfe⟩ := hi
  rw [← hfe]
  exact ⟨rfl, rfl⟩

theorem frames_count (rs rsm : FTable) (n tf : ℕ) (h2 : 2 ≤ rs.index.length) :
    (build_frames rs rsm n tf).1.length
      + ((List.range (tf + 1)).filter (fun i =>
          (frameBounds rs.index.length n i).isNone)).length
      = tf + 1 := by
  rw [frames_eq rs rsm n tf h2]
  have h := filterMap_length_add ((List.range (tf + 1)).reverse) (fun i =>
    (frameBounds rs.index.length n i).map (fun se => mkFrame rs rsm se.1 se.2))
  have hpred : (fun i => ((frameBounds rs.index.length n i).map
        (fun se => mkFrame rs rsm se.1 se.2)).isNone)
      = (fun i => (frameBounds rs.index.length n i).isNone) := by
    funext i
    cases frameBounds rs.index.length n i <;> rfl
  rw [hpred, List.filter_reverse, List.length_reverse, List.length_reverse,
    List.length_range] at h
  exact h

/-- C1 (amended): in the general case (ratio length >= 2) the emitted window
for offset `i` has `start = max(0, len - tailLength - i)` but `end` computed
from the *unclamped* start, i.e. `end = min(len, (len - tailLength - i) +
tailLength) = min(len, len - i)`; the offset is skipped (no Frame, no
Navigation Step) exactly when `end - start < 1`.  `amendedBounds` is this
closed form over ℕ and `frameBounds` is the embedding of the source's
clamping sequence (lines 54-61 of `src/rrg.py`). -/
theorem C1_frame_window_bounds (rs rsm : FTable) (n tf : ℕ) (h2 : 2 ≤ rs.index.length) :
    (∀ i, frameBounds rs.index.length n i = amendedBounds rs.index.length n i) ∧
    (build_frames rs rsm n tf).1 = (List.range (tf + 1)).reverse.filterMap (fun i =>
      (amendedBounds rs.index.length n i).map (fun se => mkFrame rs rsm se.1 se.2)) ∧
    (build_frames rs rsm n tf).2 = (List.range (tf + 1)).reverse.filterMap (fun i =>
      (amendedBounds rs.index.length n i).map (fun se =>
        mkStep (frameKey rs.index se.1 se.2))) := by
  refine ⟨fun i => frameBounds_eq_amended _ _ _, ?_, ?_⟩
  · rw [frames_eq rs rsm n tf h2]
    congr 1
    funext i
    rw [frameBounds_eq_amended]
  · rw [steps_eq rs rsm n tf h2]
    congr 1
    funext i
    rw [frameBounds_eq_amended]

/-- C1 counterexample: with `len(ratio) = 2`, `tailLength = 2`, offset `i = 1`,
the claim's formula (`end` from the clamped start) gives the window `[0, 2)`,
but the code computes `end` from the unclamped start and emits `[0, 1)`: the
first emitted frame holds a single point, not two. -/
theorem C1_counterexample :
    claimBounds 2 2 1 = some (0, 2) ∧ frameBounds 2 2 1 = some (0, 1) ∧
    ((build_frames c1Rs c1Rsm 2 1).1.map (fun f => f.data.map (fun sc => sc.x.length)))
      = [[1], [2]] := by decide

/-- Witness for `C1_frame_window_bounds` at a concrete input. -/
theorem C1_witness :
    (2 : ℕ) ≤ c1Rs.index.length ∧
    (build_frames c1Rs c1Rsm 2 1).1 = (List.range (1 + 1)).reverse.filterMap (fun i =>
      (amendedBounds c1Rs.index.length 2 i).map (fun se => mkFrame c1Rs c1Rsm se.1 se.2)) :=
  ⟨by decide, (C1_frame_window_bounds c1Rs c1Rsm 2 1 (by decide)).2.1⟩

/-- C6: for inputs of length >= 2 the number of emitted Frames plus the
number of skipped window offsets is `frameCount + 1`; the number of
Navigation Steps equals the number of Frames; step `j` is labelled with the
key of frame `j` (order matches); and — given the Time Index invariant that
the formatted dates are distinct strings of one common length — the frame
keys are unique within the invocation. -/
theorem C6_frame_step_invariants (rs rsm : FTable) (n tf : ℕ)
    (h2 : 2 ≤ rs.index.length) :
    (build_frames rs rsm n tf).1.length
        + ((List.range (tf + 1)).filter (fun i =>
            (frameBounds rs.index.length n i).isNone)).length
      = tf + 1 ∧
    (build_frames rs rsm n tf).2.length = (build_frames rs rsm n tf).1.length ∧
    (∀ j : ℕ, ((build_frames rs rsm n tf).2[j]?).map SliderStep.label
        = ((build_frames rs rsm n tf).1[j]?).map FrameD.name) ∧
    (rs.index.Nodup → (∀ a ∈ rs.index, ∀ b ∈ rs.index, a.length = b.length) →
      ((build_frames rs rsm n tf).1.map FrameD.name).Nodup) :=
  ⟨frames_count rs rsm n tf h2, steps_length_eq rs rsm n tf h2,
   step_label_pairing rs rsm n tf h2,
   fun hnd hlen => frames_names_nodup rs rsm n tf h2 hnd hlen⟩

/-- Witness for `C6_frame_step_invariants` at a concrete input. -/
theorem C6_witness :
    (build_frames c6Rs c6Rsm 2 1).1.length
        + ((List.range (1 + 1)).filter (fun i =>
            (frameBounds c6Rs.index.length 2 i).isNone)).length
      = 1 + 1 ∧
    ((build_frames c6Rs c6Rsm 2 1).1.map FrameD.name).Nodup :=
  ⟨(C6_frame_step_invariants c6Rs c6Rsm 2 1 (by decide)).1,
   (C6_frame_step_invariants c6Rs c6Rsm 2 1 (by decide)).2.2.2 (by decide) (by decide)⟩

/-- C9 (amended): in the general case every Navigation Step pairs its Frame's
key with the zero-duration instant transition parameters and the steps are in
one-to-one order-preserving correspondence with the Frames; the single step
of the degenerate (fewer than 2 rows) case, however, carries the key only —
the source (line 49 of `src/rrg.py`) emits it without any transition
parameters. -/
theorem C9_navigation_steps (rs rsm : FTable) (n tf : ℕ) :
    (2 ≤ rs.index.length →
      (build_frames rs rsm n tf).2.length = (build_frames rs rsm n tf).1.length ∧
      (∀ st ∈ (build_frames rs rsm n tf).2,
        st.transition = some instantTrans ∧ st.method = "animate") ∧
      (∀ j : ℕ, ((build_frames rs rsm n tf).2[j]?).map SliderStep.argKeys
          = ((build_frames rs rsm n tf).1[j]?).map (fun f => [f.name]))) ∧
    (rs.index.length < 2 →
      (build_frames rs rsm n tf).2 = [⟨["SingleFrame"], none, "SingleFrame", "animate"⟩]) := by
  constructor
  · intro h2
    exact ⟨steps_length_eq rs rsm n tf h2, steps_transition_general rs rsm n tf h2,
      step_argKeys_pairing rs rsm n tf h2⟩
  · intro h
    unfold build_frames
    rw [if_pos h]

/-- C9 counterexample: on a 1-row input the single emitted Navigation Step
has no transition parameters at all, contradicting the claim that every step
(including the degenerate one) carries the zero-duration instant transition
parameters. -/
theorem C9_counterexample :
    ¬ ∀ st ∈ (build_frames c9D c9D 3 10).2, st.transition = some instantTrans := by
  decide

/-- Witness for `C9_navigation_steps` at concrete inputs. -/
theorem C9_witness :
    (build_frames c9W c9W 2 1).2.length = (build_frames c9W c9W 2 1).1.length ∧
    (build_frames c9D c9D 3 10).2 = [⟨["SingleFrame"], none, "SingleFrame", "animate"⟩] :=
  ⟨((C9_navigation_steps c9W c9W 2 1).1 (by decide)).1,
   (C9_navigation_steps c9D c9D 3 10).2 (by decide)⟩

theorem degenScatter_x (name : String) (X Y : List (Option ℚ)) :
    (degenScatter name X Y).x = X := rfl

theorem degenScatter_y (name : String) (X Y : List (Option ℚ)) :
    (degenScatter name X Y).y = Y := rfl

theorem degenScatter_text (name : String) (X Y : List (Option ℚ)) :
    (degenScatter name X Y).text = List.replicate (X.length - 1) none ++ [some name] := rfl

theorem degenScatter_markerSymbol (name : String) (X Y : List (Option ℚ)) :
    (degenScatter name X Y).markerSymbol = ["triangle-up"] := rfl

theorem degenScatter_markerSize (name : String) (X Y : List (Option ℚ)) :
    (degenScatter name X Y).markerSize = [14] := rfl

theorem generalScatter_x (name : String) (X Y : List (Option ℚ)) :
    (generalScatter name X Y).x = X := rfl

theorem generalScatter_y (name : String) (X Y : List (Option ℚ)) :
    (generalScatter name X Y).y = Y := rfl

theorem generalScatter_text (name : String) (X Y : List (Option ℚ)) :
    (generalScatter name X Y).text = List.replicate (X.length - 1) none ++ [some name] := rfl

theorem generalScatter_markerSymbol (name : String) (X Y : List (Option ℚ)) :
    (generalScatter name X Y).markerSymbol
      = List.replicate (X.length - 1) "circle" ++ [arrowSymbol X Y] := rfl

theorem generalScatter_markerSize (name : String) (X Y : List (Option ℚ)) :
    (generalScatter name X Y).markerSize = List.replicate (X.length - 1) 8 ++ [14] := rfl

/-- C5: on an input with fewer than 2 rows the Frame Builder produces exactly
one Frame keyed by the sentinel "SingleFrame" which contains, for every
instrument, the whole (0- or 1-point) column with the up-arrow marker and the
instrument label on the last position only, and exactly one Navigation Step
referencing that Frame. -/
theorem C5_degenerate_case (rs rsm : FTable) (n tf : ℕ) (h : rs.index.length < 2) :
    (build_frames rs rsm n tf).1.length = 1 ∧
    (build_frames rs rsm n tf).2.length = 1 ∧
    (∀ f ∈ (build_frames rs rsm n tf).1, f.name = "SingleFrame" ∧
      f.data.length = rs.cols.length ∧
      ∀ sc ∈ f.data, ∃ p ∈ rs.cols, sc.name = p.1 ∧ sc.x = p.2 ∧ sc.y = colOf rsm p.1 ∧
        sc.markerSymbol = ["triangle-up"] ∧ sc.markerSize = [14] ∧
        sc.text = List.replicate (p.2.length - 1) none ++ [some p.1]) ∧
    (∀ st ∈ (build_frames rs rsm n tf).2, st.argKeys = ["SingleFrame"] ∧
      st.label = "SingleFrame" ∧ st.method = "animate") := by
  unfold build_frames
  rw [if_pos h]
  refine ⟨rfl, rfl, ?_, ?_⟩
  · intro f hf
    rw [List.mem_singleton] at hf
    subst hf
    refine ⟨rfl, by simp, ?_⟩
    intro sc hsc
    rw [List.mem_map] at hsc
    obtain ⟨p, hp, hps⟩ := hsc
    exact ⟨p, hp, by rw [← hps]; exact ⟨rfl, rfl, rfl, rfl, rfl, rfl⟩⟩
  · intro st hst
    rw [List.mem_singleton] at hst
    subst hst
    exact ⟨rfl, rfl, rfl⟩

/-- Witness for `C5_degenerate_case` at a concrete 1-row input. -/
theorem C5_witness :
    (build_frames c5Rs c5Rsm 4 7).1.length = 1 ∧
    (build_frames c5Rs c5Rsm 4 7).2.length = 1 :=
  ⟨(C5_degenerate_case c5Rs c5Rsm 4 7 (by decide)).1,
   (C5_degenerate_case c5Rs c5Rsm 4 7 (by decide)).2.1⟩

/-- C7 (amended): for every Frame emitted from an input with at least one row
(and positive tail length, on well-formed tables) the point, label and marker
sequences of every instrument share one length — the window length — which is
at least 1 and at most the tail length; a window of computed length 0 is
never emitted.  On a 0-row input the claim fails: the degenerate Frame's
point sequences are empty while its label and marker lists still have one
entry (see the counterexample). -/
theorem C7_frame_lengths (rs rsm : FTable) (n tf : ℕ)
    (h1 : 1 ≤ rs.index.length) (hn : 1 ≤ n)
    (hwf : ∀ p ∈ rs.cols, p.2.length = rs.index.length)
    (hwfm : ∀ p ∈ rs.cols, (colOf rsm p.1).length = rs.index.length) :
    ∀ f ∈ (build_frames rs rsm n tf).1, ∀ sc ∈ f.data,
      sc.y.length = sc.x.length ∧ sc.text.length = sc.x.length ∧
      sc.markerSymbol.length = sc.x.length ∧ sc.markerSize.length = sc.x.length ∧
      1 ≤ sc.x.length ∧ sc.x.length ≤ n := by
  intro f hf sc hsc
  by_cases hlen2 : rs.index.length < 2
  · unfold build_frames at hf
    rw [if_pos hlen2] at hf
    rw [List.mem_singleton] at hf
    subst hf
    rw [List.mem_map] at hsc
    obtain ⟨p, hp, hps⟩ := hsc
    have hx : p.2.length = 1 := by have := hwf p hp; omega
    have hy : (colOf rsm p.1).length = 1 := by have := hwfm p hp; omega
    rw [← hps]
    simp only [degenScatter_x, degenScatter_y, degenScatter_text,
      degenScatter_markerSymbol, degenScatter_markerSize,
      List.length_append, List.length_replicate, List.length_singleton, hx, hy]
    exact ⟨trivial, trivial, trivial, trivial, by omega, hn⟩
  · push_neg at hlen2
    obtain ⟨i, s, e, hb, hfe⟩ := mem_frames rs rsm n tf hlen2 f hf
    obtain ⟨hs, he, hlt⟩ := frameBounds_some _ _ _ _ _ hb
    subst hfe
    unfold mkFrame at hsc
    rw [List.mem_map] at hsc
    obtain ⟨p, hp, hps⟩ := hsc
    have hxl : (sliceCol p.2 s e).length = e - s :=
      sliceCol_length _ _ _ (by have := hwf p hp; omega)
    have hyl : (sliceCol (colOf rsm p.1) s e).length = e - s :=
      sliceCol_length _ _ _ (by have := hwfm p hp; omega)
    rw [← hps]
    simp only [generalScatter_x, generalScatter_y, generalScatter_text,
      generalScatter_markerSymbol, generalScatter_markerSize,
      List.length_append, List.length_replicate, List.length_singleton, hxl, hyl]
    refine ⟨trivial, ?_, ?_, ?_, ?_, ?_⟩ <;> omega

/-- C7 counterexample: on an empty (0-row) input the single degenerate Frame
holds, for instrument "A", an empty point sequence together with a label list
and a marker list of length 1, so the sequences do not share a single length
and the point sequence is shorter than 1. -/
theorem C7_counterexample :
    ¬ (∀ f ∈ (build_frames c7Empty c7Empty 3 1).1, ∀ sc ∈ f.data,
        sc.text.length = sc.x.length ∧ 1 ≤ sc.x.length) := by decide

/-- Witness for `C7_frame_lengths` at a concrete input and scatter. -/
theorem C7_witness :
    c7Sc.y.length = c7Sc.x.length ∧ c7Sc.text.length = c7Sc.x.length ∧
    c7Sc.markerSymbol.length = c7Sc.x.length ∧ c7Sc.markerSize.length = c7Sc.x.length ∧
    1 ≤ c7Sc.x.length ∧ c7Sc.x.length ≤ 2 := by
  have hfr : (build_frames c7Rs c7Rsm 2 0).1 = [mkFrame c7Rs c7Rsm 0 2] := rfl
  have hd : (mkFrame c7Rs c7Rsm 0 2).data = [c7Sc] := rfl
  exact C7_frame_lengths c7Rs c7Rsm 2 0 (by decide) (by decide) (by decide) (by decide)
    (mkFrame c7Rs c7Rsm 0 2) (by rw [hfr]; exact List.mem_singleton.mpr rfl)
    c7Sc (by rw [hd]; exact List.mem_singleton.mpr rfl)

/-- C4: in every emitted Frame, for a window with at least two (defined) final
points the last marker symbol is the direction classifier of the spec applied
to `dx = x[-1] - x[-2]`, `dy = y[-1] - y[-2]` — horizontal arrows only when
`|dx| > |dy|` (so ties go to the vertical branch), `dx > 0` picking "right",
else "left", and otherwise `dy > 0` picking "up", else "down" — while a
window with fewer than 2 points gets the "up" marker. -/
theorem C4_direction_marker (rs rsm : FTable) (n tf : ℕ)
    (hwf : ∀ p ∈ rs.cols, p.2.length = rs.index.length) :
    ∀ f ∈ (build_frames rs rsm n tf).1, ∀ sc ∈ f.data,
      (∀ a b c d : ℚ, 2 ≤ sc.x.length →
        sc.x.getD (sc.x.length - 1) none = some a →
        sc.x.getD (sc.x.length - 2) none = some b →
        sc.y.getD (sc.y.length - 1) none = some c →
        sc.y.getD (sc.y.length - 2) none = some d →
        sc.markerSymbol.getLast? = some (claimDir (a - b) (c - d))) ∧
      (sc.x.length < 2 → sc.markerSymbol.getLast? = some "triangle-up") := by
  intro f hf sc hsc
  by_cases hlen2 : rs.index.length < 2
  · unfold build_frames at hf
    rw [if_pos hlen2] at hf
    rw [List.mem_singleton] at hf
    subst hf
    rw [List.mem_map] at hsc
    obtain ⟨p, hp, hps⟩ := hsc
    have hx : p.2.length < 2 := by have := hwf p hp; omega
    rw [← hps]
    constructor
    · intro a b c d h2x
      exfalso
      have : (degenScatter p.1 p.2 (colOf rsm p.1)).x = p.2 := rfl
      rw [this] at h2x
      omega
    · intro h
      rfl
  · push_neg at hlen2
    obtain ⟨i, s, e, hb, hfe⟩ := mem_frames rs rsm n tf hlen2 f hf
    subst hfe
    unfold mkFrame at hsc
    rw [List.mem_map] at hsc
    obtain ⟨p, hp, hps⟩ := hsc
    subst hps
    have hms : (generalScatter p.1 (sliceCol p.2 s e)
        (sliceCol (colOf rsm p.1) s e)).markerSymbol.getLast?
        = some (arrowSymbol (sliceCol p.2 s e) (sliceCol (colOf rsm p.1) s e)) := by
      rw [generalScatter_markerSymbol]
      exact List.getLast?_concat _
    constructor
    · intro a b c d h2x hx1 hx2 hy1 hy2
      rw [generalScatter_x] at h2x hx1 hx2
      rw [generalScatter_y] at hy1 hy2
      rw [hms]
      rw [arrowSymbol_eq_claimDir _ _ a b c d h2x hx1 hx2 hy1 hy2]
    · intro hshort
      rw [generalScatter_x] at hshort
      rw [hms]
      rw [arrowSymbol_short _ _ hshort]

/-- Witness for `C4_direction_marker`: the spec's own test vector
`(0,0) → (2,1)` yields the "right" arrow on the final point. -/
theorem C4_witness :
    c4Sc.markerSymbol.getLast? = some (claimDir (2 - 0) (1 - 0)) ∧
    claimDir (2 - 0) (1 - 0) = "triangle-right" := by
  have hfr : (build_frames c4Rs c4Rsm 2 0).1 = [mkFrame c4Rs c4Rsm 0 2] := rfl
  have hd : (mkFrame c4Rs c4Rsm 0 2).data = [c4Sc] := rfl
  refine ⟨(C4_direction_marker c4Rs c4Rsm 2 0 (by decide) (mkFrame c4Rs c4Rsm 0 2)
      (by rw [hfr]; exact List.mem_singleton.mpr rfl)
      c4Sc (by rw [hd]; exact List.mem_singleton.mpr rfl)).1 2 0 1 0
      (by decide) rfl rfl rfl rfl, ?_⟩
  norm_num [claimDir, abs_two, abs_one]

/-! ## Helper lemmas: the Metrics Engine -/

theorem oadd_some (x y : ℝ) : oadd (some x) (some y) = some (x + y) := rfl

theorem osub_some (x y : ℝ) : osub (some x) (some y) = some (x - y) := rfl

theorem omul_some (x y : ℝ) : omul (some x) (some y) = some (x * y) := rfl

theorem odiv_some (x y : ℝ) :
    odiv (some x) (some y) = if y = 0 then none else some (x / y) := rfl

theorem rollingMean_none_of_short (w : ℕ) (f : ℕ → Option ℝ) (t : ℕ) (h : t + 1 < w) :
    rollingMean w f t = none := by
  unfold rollingMean
  rw [if_neg]
  rintro ⟨-, h2, -⟩
  omega

theorem rollingWindow_one (f : ℕ → Option ℝ) (h : ∀ u, f u = some 1) (w t : ℕ) :
    rollingWindow w f t = List.replicate w (some 1) := by
  have h1 : ∀ b ∈ (List.range w).map (fun j => f (t + 1 - w + j)), b = some (1 : ℝ) := by
    intro b hb
    rw [List.mem_map] at hb
    obtain ⟨j, -, rfl⟩ := hb
    exact h _
  rw [rollingWindow]
  have h2 := List.eq_replicate_of_mem h1
  simpa using h2

theorem rollingMean_of_const_one (f : ℕ → Option ℝ) (h : ∀ u, f u = some 1)
    (w t : ℕ) (h0 : 0 < w) (hle : w ≤ t + 1) : rollingMean w f t = some 1 := by
  have hw : ((w : ℝ)) ≠ 0 := Nat.cast_ne_zero.mpr (by omega)
  unfold rollingMean
  rw [rollingWindow_one f h w t]
  rw [if_pos]
  · congr 1
    simp [List.map_replicate, List.sum_replicate, nsmul_eq_mul, div_self hw]
  · refine ⟨h0, hle, ?_⟩
    simp

theorem rollingVar_of_const_one (f : ℕ → Option ℝ) (h : ∀ u, f u = some 1)
    (w t : ℕ) (h0 : 0 < w) (hle : w ≤ t + 1) : rollingVar w f t = some 0 := by
  have hw : ((w : ℝ)) ≠ 0 := Nat.cast_ne_zero.mpr (by omega)
  unfold rollingVar
  rw [rollingWindow_one f h w t]
  rw [if_pos]
  · congr 1
    simp [List.map_replicate, List.sum_replicate, nsmul_eq_mul, mul_one, div_self hw]
  · refine ⟨h0, hle, ?_⟩
    simp

/-- C2: the Metrics Engine divides each instrument column elementwise by the
benchmark, takes the rolling mean and rolling population standard deviation
(denominator the window size `w`, as `std(ddof=0)` computes) over the
trailing `w` observations, and returns `ratio[t] = 100 + (raw[t] - mean[t]) /
std[t]`; the first `w - 1` rows of every ratio column are not-a-number, and a
row with zero rolling standard deviation is not-a-number rather than an
error. -/
theorem C2_metrics_ratio (bench col : ℕ → Option ℝ) (w : ℕ) (hw : 1 ≤ w) :
    (∀ cols : List (String × (ℕ → Option ℝ)),
      (calculate bench cols w).1 = cols.map (fun p => (p.1, ratioCol bench p.2 w))) ∧
    (∀ t, rawCol bench col t = odiv (col t) (bench t)) ∧
    (∀ t (r m sd : ℝ), rawCol bench col t = some r →
      rollingMean w (rawCol bench col) t = some m →
      rollingStd w (rawCol bench col) t = some sd → sd ≠ 0 →
      ratioCol bench col w t = some (100 + (r - m) / sd)) ∧
    (∀ t, t + 1 < w → ratioCol bench col w t = none) ∧
    (∀ t, rollingStd w (rawCol bench col) t = some 0 → ratioCol bench col w t = none) ∧
    (∀ t, w ≤ t + 1 →
      (∀ j, j < w → ((rawCol bench col) (t + 1 - w + j)).isSome = true) →
      rollingMean w (rawCol bench col) t
        = some ((∑ j ∈ Finset.range w, ((rawCol bench col) (t + 1 - w + j)).getD 0) / w) ∧
      rollingStd w (rawCol bench col) t
        = some (Real.sqrt ((∑ j ∈ Finset.range w,
            (((rawCol bench col) (t + 1 - w + j)).getD 0
              - (∑ j2 ∈ Finset.range w, ((rawCol bench col) (t + 1 - w + j2)).getD 0) / w) ^ 2)
            / w))) := by
  refine ⟨fun cols => rfl, fun t => rfl, ?_, ?_, ?_, ?_⟩
  · intro t r m sd h1 h2 h3 hne
    unfold ratioCol ratioFromRaw
    rw [h1, h2, h3, osub_some, odiv_some, if_neg hne, oadd_some]
  · intro t h
    have hm : rollingMean w (rawCol bench col) t = none :=
      rollingMean_none_of_short w _ t h
    unfold ratioCol ratioFromRaw
    rw [hm, osub_none_right, odiv_none_left, oadd_none_right]
  · intro t h
    unfold ratioCol ratioFromRaw
    rw [h, odiv_zero_right, oadd_none_right]
  · intro t hle hall
    have hcond : 0 < w ∧ w ≤ t + 1 ∧
        ((rollingWindow w (rawCol bench col) t).all (fun o => o.isSome)) = true := by
      refine ⟨by omega, hle, ?_⟩
      rw [List.all_eq_true]
      intro o ho
      rw [rollingWindow, List.mem_map] at ho
      obtain ⟨j, hj, rfl⟩ := ho
      exact hall j (List.mem_range.mp hj)
    constructor
    · unfold rollingMean
      rw [if_pos hcond]
      congr 1
      rw [rollingWindow, List.map_map]
      rfl
    · unfold rollingStd rollingVar
      rw [if_pos hcond]
      simp only [Option.map_some']
      congr 1
      rw [rollingWindow, List.map_map, List.map_map]
      rfl

/-- Witness for `C2_metrics_ratio` at a concrete input: with window 2 the
ratio at row 0 is not-a-number. -/
theorem C2_witness :
    (0 : ℕ) + 1 < 2 ∧ ratioCol (fun _ => some 1) (fun _ => some 1) 2 0 = none :=
  ⟨by omega,
   (C2_metrics_ratio (fun _ => some 1) (fun _ => some 1) 2 (by omega)).2.2.2.1 0 (by omega)⟩

/-- C3: the rate-of-change column is `roc[t] = (ratio[t] / ratio[t-5] - 1) *
100`, not-a-number for the first 5 rows and wherever `ratio[t-5]` is absent,
and the momentum output is `momentum[t] = 101 + (roc[t] - rollingMean(roc)[t])
/ rollingStd(roc)[t]` with the same window and population standard deviation,
zero variance again yielding not-a-number. -/
theorem C3_metrics_momentum (bench col : ℕ → Option ℝ) (w : ℕ) (hw : 1 ≤ w) :
    (∀ cols : List (String × (ℕ → Option ℝ)),
      (calculate bench cols w).2 = cols.map (fun p => (p.1, momCol bench p.2 w))) ∧
    (∀ t, momCol bench col w t = momFromRatio w (ratioCol bench col w) t) ∧
    (∀ t, t < 5 → rocFromRatio (ratioCol bench col w) t = none) ∧
    (∀ t, 5 ≤ t → ratioCol bench col w (t - 5) = none →
      rocFromRatio (ratioCol bench col w) t = none) ∧
    (∀ t (a b : ℝ), 5 ≤ t → ratioCol bench col w t = some a →
      ratioCol bench col w (t - 5) = some b → b ≠ 0 →
      rocFromRatio (ratioCol bench col w) t = some ((a / b - 1) * 100)) ∧
    (∀ t (r m sd : ℝ), rocFromRatio (ratioCol bench col w) t = some r →
      rollingMean w (rocFromRatio (ratioCol bench col w)) t = some m →
      rollingStd w (rocFromRatio (ratioCol bench col w)) t = some sd → sd ≠ 0 →
      momCol bench col w t = some (101 + (r - m) / sd)) ∧
    (∀ t, rollingStd w (rocFromRatio (ratioCol bench col w)) t = some 0 →
      momCol bench col w t = none) := by
  refine ⟨fun cols => rfl, fun t => rfl, ?_, ?_, ?_, ?_, ?_⟩
  · intro t h
    unfold rocFromRatio
    rw [if_pos h]
  · intro t h5 hnone
    unfold rocFromRatio
    rw [if_neg (by omega), hnone, odiv_none_right, osub_none_left, omul_none_left]
  · intro t a b h5 ha hb hbne
    unfold rocFromRatio
    rw [if_neg (by omega), ha, hb, odiv_some, if_neg hbne, osub_some, omul_some]
  · intro t r m sd h1 h2 h3 hne
    unfold momCol momFromRatio
    rw [h1, h2, h3, osub_some, odiv_some, if_neg hne, oadd_some]
  · intro t h
    unfold momCol momFromRatio
    rw [h, odiv_zero_right, oadd_none_right]

/-- Witness for `C3_metrics_momentum` at a concrete input: the rate-of-change
at row 2 is not-a-number because fewer than 5 prior observations exist. -/
theorem C3_witness :
    (2 : ℕ) < 5 ∧ rocFromRatio (ratioCol (fun _ => some 1) (fun _ => some 1) 2) 2 = none :=
  ⟨by omega,
   (C3_metrics_momentum (fun _ => some 1) (fun _ => some 1) 2 (by omega)).2.2.1 2 (by omega)⟩

/-- C10: when an instrument's price series equals the benchmark series (all
prices present and nonzero), the raw ratio is the constant 1 at every row,
the rolling population standard deviation is 0 once the window fills, and the
normalized ratio is not-a-number from that point onward. -/
theorem C10_identical_instrument (bench : ℕ → Option ℝ) (w : ℕ) (hw : 1 ≤ w)
    (hb : ∀ t, ∃ v, bench t = some v ∧ v ≠ 0) :
    (∀ t, rawCol bench bench t = some 1) ∧
    (∀ t, w ≤ t + 1 → rollingStd w (rawCol bench bench) t = some 0) ∧
    (∀ t, w ≤ t + 1 → ratioCol bench bench w t = none) := by
  have hone : ∀ t, rawCol bench bench t = some 1 := by
    intro t
    obtain ⟨v, hv, hnz⟩ := hb t
    unfold rawCol
    rw [hv, odiv_some, if_neg hnz, div_self hnz]
  have hstd : ∀ t, w ≤ t + 1 → rollingStd w (rawCol bench bench) t = some 0 := by
    intro t ht
    unfold rollingStd
    rw [rollingVar_of_const_one _ hone w t (by omega) ht]
    simp [Real.sqrt_zero]
  refine ⟨hone, hstd, ?_⟩
  intro t ht
  unfold ratioCol ratioFromRaw
  rw [hstd t ht, odiv_zero_right, oadd_none_right]

/-- Witness for `C10_identical_instrument` at a concrete input. -/
theorem C10_witness :
    ratioCol (fun _ => some (1 : ℝ)) (fun _ => some 1) 1 0 = none :=
  (C10_identical_instrument (fun _ => some 1) 1 (by omega)
    (fun _ => ⟨1, rfl, one_ne_zero⟩)).2.2 0 (by omega)

/-! ## Helper lemmas: index alignment (claim C8) -/

theorem posLookup_not_mem (idx : List ℕ) (vals : List (Option ℝ)) (d : ℕ)
    (h : d ∉ idx) : posLookup idx vals d = none := by
  unfold posLookup
  have hidx : idx.findIdx? (fun e => e == d) = none := by
    rw [List.findIdx?_eq_none_iff]
    intro x hx
    exact beq_eq_false_iff_ne.mpr (fun hEq => h (hEq ▸ hx))
  rw [hidx]

theorem rawAligned_none_of_missing (bIdx tIdx : List ℕ)
    (bvals cvals : List (Option ℝ)) (k : ℕ)
    (h : (mergeUnion tIdx bIdx).getD k 0 ∉ tIdx ∨ (mergeUnion tIdx bIdx).getD k 0 ∉ bIdx) :
    rawAligned bIdx bvals tIdx cvals k = none := by
  unfold rawAligned
  split_ifs with hk
  · rcases h with h | h
    · rw [posLookup_not_mem _ _ _ h, odiv_none_left]
    · rw [posLookup_not_mem _ _ _ h, odiv_none_right]
  · rfl

theorem ratioFromRaw_none_of_raw_none (w : ℕ) (raw : ℕ → Option ℝ) (t : ℕ)
    (h : raw t = none) : ratioFromRaw w raw t = none := by
  unfold ratioFromRaw
  rw [h, osub_none_left, odiv_none_left, oadd_none_right]

/-- C8 (amended): the Metrics Engine performs no precondition validation.
With mismatched time indices the elementwise division aligns benchmark and
instruments on the sorted union of the two indices and a full result table
over that union is produced — no error is reported; every union row missing
from either input's index simply carries a not-a-number ratio entry. -/
theorem C8_no_validation (bIdx tIdx : List ℕ) (bvals : List (Option ℝ))
    (cols : List (String × List (Option ℝ))) (w : ℕ) :
    (calculateAligned bIdx bvals tIdx cols w).1 = mergeUnion tIdx bIdx ∧
    (calculateAligned bIdx bvals tIdx cols w).2.1
      = cols.map (fun p => (p.1, ratioFromRaw w (rawAligned bIdx bvals tIdx p.2))) ∧
    (∀ cvals : List (Option ℝ), ∀ k : ℕ,
      ((mergeUnion tIdx bIdx).getD k 0 ∉ tIdx ∨ (mergeUnion tIdx bIdx).getD k 0 ∉ bIdx) →
      ratioFromRaw w (rawAligned bIdx bvals tIdx cvals) k = none) := by
  refine ⟨rfl, rfl, ?_⟩
  intro cvals k h
  exact ratioFromRaw_none_of_raw_none w _ k
    (rawAligned_none_of_missing bIdx tIdx bvals cvals k h)

/-- C8 counterexample: calling the engine with benchmark index `[0,1,2]` and
instrument index `[1,2,3]` (not identical) does not raise: the output is
indexed by the union `[0,1,2,3]`, rows 0 and 3 (missing on one side) are
not-a-number, and row 2 carries the genuinely computed value 101 — a (partial,
NaN-padded) result is produced rather than a contract error. -/
theorem C8_counterexample :
    (calculateAligned c8BIdx c8BVals c8TIdx [("A", c8CVals)] 2).1 = [0, 1, 2, 3] ∧
    ratioFromRaw 2 (rawAligned c8BIdx c8BVals c8TIdx c8CVals) 2 = some 101 ∧
    ratioFromRaw 2 (rawAligned c8BIdx c8BVals c8TIdx c8CVals) 0 = none ∧
    ratioFromRaw 2 (rawAligned c8BIdx c8BVals c8TIdx c8CVals) 3 = none := by
  have h1 : rawAligned c8BIdx c8BVals c8TIdx c8CVals 1 = some 2 := by
    unfold rawAligned
    rw [if_pos (by decide)]
    rw [show (mergeUnion c8TIdx c8BIdx).getD 1 0 = 1 from by decide]
    rw [show posLookup c8TIdx c8CVals 1 = some 2 from rfl,
        show posLookup c8BIdx c8BVals 1 = some 1 from rfl]
    rw [odiv_some, if_neg one_ne_zero]
    norm_num
  have h2 : rawAligned c8BIdx c8BVals c8TIdx c8CVals 2 = some 4 := by
    unfold rawAligned
    rw [if_pos (by decide)]
    rw [show (mergeUnion c8TIdx c8BIdx).getD 2 0 = 2 from by decide]
    rw [show posLookup c8TIdx c8CVals 2 = some 4 from rfl,
        show posLookup c8BIdx c8BVals 2 = some 1 from rfl]
    rw [odiv_some, if_neg one_ne_zero]
    norm_num
  have h0 : rawAligned c8BIdx c8BVals c8TIdx c8CVals 0 = none :=
    rawAligned_none_of_missing _ _ _ _ 0 (Or.inl (by decide))
  have h3 : rawAligned c8BIdx c8BVals c8TIdx c8CVals 3 = none :=
    rawAligned_none_of_missing _ _ _ _ 3 (Or.inr (by decide))
  have hW : rollingWindow 2 (rawAligned c8BIdx c8BVals c8TIdx c8CVals) 2
      = [some 2, some 4] := by
    unfold rollingWindow
    rw [show List.range 2 = [0, 1] from rfl]
    simp only [List.map_cons, List.map_nil]
    norm_num [h1, h2]
  have hm : rollingMean 2 (rawAligned c8BIdx c8BVals c8TIdx c8CVals) 2 = some 3 := by
    unfold rollingMean
    rw [hW, if_pos ⟨by omega, by omega, by simp⟩]
    norm_num
  have hv : rollingVar 2 (rawAligned c8BIdx c8BVals c8TIdx c8CVals) 2 = some 1 := by
    unfold rollingVar
    rw [hW, if_pos ⟨by omega, by omega, by simp⟩]
    norm_num
  have hsd : rollingStd 2 (rawAligned c8BIdx c8BVals c8TIdx c8CVals) 2 = some 1 := by
    unfold rollingStd
    rw [hv]
    simp [Real.sqrt_one]
  refine ⟨by decide, ?_, ?_, ?_⟩
  · unfold ratioFromRaw
    rw [h2, hm, hsd, osub_some, odiv_some, if_neg one_ne_zero, oadd_some]
    norm_num
  · exact ratioFromRaw_none_of_raw_none 2 _ 0 h0
  · exact ratioFromRaw_none_of_raw_none 2 _ 3 h3

/-- Witness for `C8_no_validation` at the mismatched concrete indices. -/
theorem C8_witness :
    ((mergeUnion c8TIdx c8BIdx).getD 0 0 ∉ c8TIdx ∨
      (mergeUnion c8TIdx c8BIdx).getD 0 0 ∉ c8BIdx) ∧
    ratioFromRaw 2 (rawAligned c8BIdx c8BVals c8TIdx c8CVals) 0 = none :=
  ⟨Or.inl (by decide),
   (C8_no_validation c8BIdx c8TIdx c8BVals [("A", c8CVals)] 2).2.2 c8CVals 0
     (Or.inl (by decide))⟩
